import Mathlib

/-!
Shallow embedding of the core of the ex-compile-graph terminal UI
(`src/ui/src`): the subprocess protocol adapter, the search-input state,
the top-level application state machine, the file panel cursor, the
dependency-cause panel, and the two-level dependents navigator.

Rust `usize` values are modelled as `Nat`; places where the Rust code can
panic (out-of-bounds indexing, `unwrap` of `None`, arithmetic underflow)
are modelled by `Option`-valued functions returning `none`.
-/

namespace ExCompileGraph

/-! ## Data model (src/ui/src/lib.rs) -/

abbrev FilePath := String

inductive DependencyType
  | compile
  | exports
  | runtime
deriving DecidableEq, Repr

inductive RecomplileDependencyReason
  | compile
  | exportsThenCompile
  | exports
  | compileThenRuntime
deriving DecidableEq, Repr

structure DependencyLink where
  dependency_type : DependencyType
  source : FilePath
  sink : FilePath
deriving DecidableEq, Repr

structure RecomplileDependency where
  id : String
  path : FilePath
  reason : RecomplileDependencyReason
  dependency_chain : List DependencyLink
deriving DecidableEq, Repr

structure FileEntry where
  path : FilePath
  recompile_dependencies : List RecomplileDependency
deriving DecidableEq, Repr

structure CodeSnippet where
  content : String
  highlight : Nat × Nat
  lines_span : Nat × Nat
deriving DecidableEq, Repr

structure DependencyCause where
  source : FilePath
  sink : FilePath
  snippets : List CodeSnippet
  dependency_type : DependencyType
deriving DecidableEq, Repr

/-! ## Events (src/ui/src/app_event.rs) -/

inductive AppEvent
  | UpButtonPressed
  | DownButtonPressed
  | SelectFile (entry : FileEntry)
  | SelectDependentFile (dep : RecomplileDependency)
  | ViewDependentFile (link : DependencyLink)
  | StopViewDependentFile (link : DependencyLink)
  | EnterSearch
  | SearchInput (c : Char)
  | SearchInputDelete
  | SubmitSearch
  | GetFilesDone (files : List FileEntry)
  | GetDependencyCausesDone (causes : List DependencyCause)
  | Cancel
  | Quit
deriving DecidableEq, Repr

/-! ## Protocol adapter (src/ui/src/adapter.rs)

`wait_for_response` reads lines from the subprocess stdout.  The stream is
modelled as the list of lines still to be read; the Rust function blocks
forever when the stream runs dry, modelled by the `exhausted` outcome. -/

/-- Decimal value of a digit string, as captured by the response regex. -/
def digitsToNat (ds : List Char) : Nat :=
  ds.foldl (fun acc c => acc * 10 + (c.toNat - 48)) 0

/-- The regex from `wait_for_response`: a line matches
the pattern of an S header followed by a bracketed decimal id, a colon and a
non-empty payload, terminated by a single newline.  Returns the captured
id and payload. -/
def parseResponseLine (line : String) : Option (Nat × String) :=
  let chars := line.toList
  match chars with
  | 'S' :: '[' :: rest =>
      let digits := rest.takeWhile Char.isDigit
      let afterDigits := rest.dropWhile Char.isDigit
      if digits.isEmpty then none
      else
        match afterDigits with
        | ']' :: ':' :: payloadAndNl =>
            match payloadAndNl.reverse with
            | '\n' :: payloadRev =>
                let payload := payloadRev.reverse
                if payload.isEmpty then none
                else if payload.contains '\n' then none
                else some (digitsToNat digits, String.mk payload)
            | _ => none
        | _ => none
  | _ => none

inductive WaitResult
  | ok (payload : String)
  | mismatch (expected found : Nat)
  | exhausted
deriving DecidableEq, Repr

/-- `wait_for_response` from src/ui/src/adapter.rs: reads one line; if it
fails to match the response regex, recurses on the rest of the stream; if
it matches, returns the payload when the id equals the awaited request id
and an error otherwise. -/
def wait_for_response (lines : List String) (request_id : Nat) : WaitResult :=
  match lines with
  | [] => WaitResult.exhausted
  | line :: rest =>
      match parseResponseLine line with
      | some (response_id, payload) =>
          if response_id = request_id then WaitResult.ok payload
          else WaitResult.mismatch request_id response_id
      | none => wait_for_response rest request_id

/-! Outbound requests and the sequence-id counter
(`impl ServerAdapter for Adapter`). -/

inductive RequestPayload
  | initPayload
  | getFilesPayload
  | getDependencyCausesPayload (source sink : FilePath)
      (reason : RecomplileDependencyReason)
deriving DecidableEq, Repr

inductive AdapterCall
  | initServer
  | getFiles
  | getDependencyCauses (source sink : FilePath)
      (reason : RecomplileDependencyReason)
deriving DecidableEq, Repr

structure AdapterState where
  request_sequence_id : Nat
deriving DecidableEq, Repr

def payloadOfCall : AdapterCall → RequestPayload
  | AdapterCall.initServer => RequestPayload.initPayload
  | AdapterCall.getFiles => RequestPayload.getFilesPayload
  | AdapterCall.getDependencyCauses s k r =>
      RequestPayload.getDependencyCausesPayload s k r

/-- Each of `init_server`, `get_files`, `get_dependency_causes` sends
`(self.request_sequence_id, payload)` and then increments the counter. -/
def adapter_call (s : AdapterState) (c : AdapterCall) :
    AdapterState × (Nat × RequestPayload) :=
  (⟨s.request_sequence_id + 1⟩, (s.request_sequence_id, payloadOfCall c))

/-- Run a sequence of calls from a given adapter state, collecting the
outbound `(id, payload)` pairs in issue order. -/
def adapter_run_from (s : AdapterState) :
    List AdapterCall → List (Nat × RequestPayload)
  | [] => []
  | c :: cs =>
      let (s2, req) := adapter_call s c
      req :: adapter_run_from s2 cs

/-- A fresh adapter starts with `request_sequence_id = 0` (`Adapter::new`). -/
def adapter_run (calls : List AdapterCall) : List (Nat × RequestPayload) :=
  adapter_run_from ⟨0⟩ calls

/-! ## Search input (src/ui/src/components/search_input.rs) -/

inductive SearchInputState
  | noneState
  | prompt (input : String)
  | search (query : String)
deriving DecidableEq, Repr

namespace SearchInputState

def is_active : SearchInputState → Bool
  | search _ => true
  | prompt _ => true
  | _ => false

def is_prompting : SearchInputState → Bool
  | search _ => false
  | prompt _ => true
  | _ => false

def prompt_begin : SearchInputState → SearchInputState
  | noneState => prompt ""
  | s => s

def prompt_add (s : SearchInputState) (c : Char) : SearchInputState :=
  match s with
  | prompt input => prompt (input.push c)
  | s => s

def prompt_remove : SearchInputState → SearchInputState
  | prompt input => prompt (String.mk input.toList.dropLast)
  | s => s

def searchCommit : SearchInputState → SearchInputState
  | prompt input => search input
  | s => s

def cancel : SearchInputState → SearchInputState
  | prompt _ => noneState
  | search _ => noneState
  | s => s

end SearchInputState

/-! ## Top-level application state machine (src/ui/src/app_state.rs) -/

inductive StateMachine
  | FilePanelView
  | FileDependentsView
deriving DecidableEq, Repr

structure GlobalState where
  state_machine : StateMachine
  selected_dependency_source : Option FileEntry
  file_panel_search : SearchInputState
  file_dependent_panel_search : SearchInputState
  files_list : Option (List FileEntry)
deriving DecidableEq, Repr

def GlobalState.initial : GlobalState :=
  { state_machine := StateMachine.FilePanelView
    selected_dependency_source := none
    file_panel_search := SearchInputState.noneState
    file_dependent_panel_search := SearchInputState.noneState
    files_list := none }

/-- `AppState::handle_event` restricted to the global state it mutates. -/
def app_state_handle_event (g : GlobalState) (event : AppEvent) : GlobalState :=
  match event with
  | AppEvent.SelectFile file_entry =>
      { g with state_machine := StateMachine.FileDependentsView
               selected_dependency_source := some file_entry }
  | AppEvent.GetFilesDone files => { g with files_list := some files }
  | AppEvent.EnterSearch =>
      match g.state_machine with
      | StateMachine.FilePanelView =>
          { g with file_panel_search := g.file_panel_search.prompt_begin }
      | StateMachine.FileDependentsView =>
          { g with file_dependent_panel_search :=
              g.file_dependent_panel_search.prompt_begin }
  | AppEvent.SearchInput c =>
      match g.state_machine with
      | StateMachine.FilePanelView =>
          { g with file_panel_search := g.file_panel_search.prompt_add c }
      | StateMachine.FileDependentsView =>
          { g with file_dependent_panel_search :=
              g.file_dependent_panel_search.prompt_add c }
  | AppEvent.SearchInputDelete =>
      match g.state_machine with
      | StateMachine.FilePanelView =>
          { g with file_panel_search := g.file_panel_search.prompt_remove }
      | StateMachine.FileDependentsView =>
          { g with file_dependent_panel_search :=
              g.file_dependent_panel_search.prompt_remove }
  | AppEvent.SubmitSearch =>
      match g.state_machine with
      | StateMachine.FilePanelView =>
          { g with file_panel_search := g.file_panel_search.searchCommit }
      | StateMachine.FileDependentsView =>
          { g with file_dependent_panel_search :=
              g.file_dependent_panel_search.searchCommit }
  | AppEvent.Cancel =>
      match g.state_machine with
      | StateMachine.FilePanelView =>
          if g.file_panel_search.is_active then
            { g with file_panel_search := g.file_panel_search.cancel }
          else g
      | StateMachine.FileDependentsView =>
          if g.file_dependent_panel_search.is_active then
            { g with file_dependent_panel_search :=
                g.file_dependent_panel_search.cancel }
          else
            { g with state_machine := StateMachine.FilePanelView
                     selected_dependency_source := none }
  | _ => g

/-! ## File panel cursor (src/ui/src/components/file_panel.rs)

`State` holds only `selected_file_index`; `handle_event` does nothing when
the widget has no files or an empty files list. -/

def file_panel_handle_event (cursor : Nat) (files : Option (List FileEntry))
    (event : AppEvent) : Nat :=
  match files with
  | none => cursor
  | some fs =>
      if fs.isEmpty then cursor
      else
        match event with
        | AppEvent.DownButtonPressed =>
            if cursor < fs.length - 1 then cursor + 1 else cursor
        | AppEvent.UpButtonPressed =>
            if cursor > 0 then cursor - 1 else cursor
        | AppEvent.SubmitSearch => 0
        | _ => cursor

/-- One dispatch step for the file-panel cursor together with the global
state, as `dispatch_event` in src/ui/src/main.rs routes it: the file panel
receives the event only while the state machine is in `FilePanelView`, and
the top-level `AppState` always receives it. -/
def filePanelDispatch (files : Option (List FileEntry))
    (s : Nat × GlobalState) (event : AppEvent) : Nat × GlobalState :=
  let cursor :=
    match s.2.state_machine with
    | StateMachine.FilePanelView => file_panel_handle_event s.1 files event
    | StateMachine.FileDependentsView => s.1
  (cursor, app_state_handle_event s.2 event)

/-! ## Dependents navigator (src/ui/src/components/file_dependent_panel.rs)

`State` is `(selected_file_index : (usize, Option usize), expanded_file :
Option String)`.  The handlers index into `widget.files` and into the
expanded entry's `dependency_chain` without bounds checks, and compute
`len - 1` on `usize`; any such panic is modelled by returning `none`.
`usizeSub1` models a debug-mode `usize` subtraction by one. -/

structure FileDependentPanel where
  dependency_source : FilePath
  files : List RecomplileDependency
deriving DecidableEq, Repr

structure FDPState where
  selected_file_index : Nat × Option Nat
  expanded_file : Option String
deriving DecidableEq, Repr

def FDPState.initial : FDPState :=
  { selected_file_index := (0, none), expanded_file := none }

def usizeSub1 (n : Nat) : Option Nat :=
  if n = 0 then none else some (n - 1)

/-- `view_file_event`: builds `ViewDependentFile` from the chain entry of
the file at the outer index. -/
def view_file_event (state : FDPState) (dependency_node_index : Nat)
    (widget : FileDependentPanel) : Option AppEvent := do
  let selected_file ← widget.files[state.selected_file_index.1]?
  let link ← selected_file.dependency_chain[dependency_node_index]?
  pure (AppEvent.ViewDependentFile link)

/-- `stop_view_file_event`: builds `StopViewDependentFile` from the chain
entry of the file at the outer index. -/
def stop_view_file_event (state : FDPState) (dependency_node_index : Nat)
    (widget : FileDependentPanel) : Option AppEvent := do
  let selected_file ← widget.files[state.selected_file_index.1]?
  let link ← selected_file.dependency_chain[dependency_node_index]?
  pure (AppEvent.StopViewDependentFile link)

inductive DownAction
  | NextOuterList
  | NextExpandedList
  | ExitExpandedList
deriving DecidableEq, Repr

/-- The action-list computation at the top of `handle_down_button_pressed`. -/
def downActions (state : FDPState) (widget : FileDependentPanel) :
    Option (List DownAction) :=
  let outer_list_len := widget.files.length
  let outer_list_index := state.selected_file_index.1
  match state.expanded_file with
  | some expanded => do
      let entry ← widget.files[outer_list_index]?
      let at_expanded_file := entry.id = expanded
      let expanded_list_len := entry.dependency_chain.length
      if at_expanded_file then
        match state.selected_file_index.2 with
        | some expanded_index => do
            let last ← usizeSub1 expanded_list_len
            if expanded_index = last then
              if outer_list_index = outer_list_len - 1 then
                pure []
              else
                pure [DownAction.ExitExpandedList, DownAction.NextOuterList]
            else
              pure [DownAction.NextExpandedList]
        | none => pure [DownAction.NextExpandedList]
      else
        pure [DownAction.NextOuterList]
  | none => pure [DownAction.NextOuterList]

/-- One iteration of the action loop in `handle_down_button_pressed`;
events are appended in emission order. -/
def applyDownAction (widget : FileDependentPanel)
    (acc : FDPState × List AppEvent) (action : DownAction) :
    Option (FDPState × List AppEvent) :=
  let state := acc.1
  let events := acc.2
  match action with
  | DownAction.NextOuterList =>
      if widget.files.length ≠ 0 ∧
          state.selected_file_index.1 < widget.files.length - 1 then
        some ({ state with selected_file_index :=
                  (state.selected_file_index.1 + 1,
                   state.selected_file_index.2) }, events)
      else
        some (state, events)
  | DownAction.NextExpandedList =>
      match state.selected_file_index.2 with
      | some index => do
          let e1 ← stop_view_file_event state index widget
          let e2 ← view_file_event state (index + 1) widget
          pure ({ state with selected_file_index :=
                    (state.selected_file_index.1, some (index + 1)) },
                events ++ [e1, e2])
      | none => do
          let e ← view_file_event state 0 widget
          pure ({ state with selected_file_index :=
                    (state.selected_file_index.1, some 0) },
                events ++ [e])
  | DownAction.ExitExpandedList => do
      let index ← state.selected_file_index.2
      let e ← stop_view_file_event state index widget
      pure ({ state with selected_file_index :=
                (state.selected_file_index.1, none) },
            events ++ [e])

/-- `handle_down_button_pressed`: computes the action list, then applies
the actions in order, threading the state and collecting sent events. -/
def handle_down_button_pressed (state : FDPState)
    (widget : FileDependentPanel) : Option (FDPState × List AppEvent) := do
  let actions ← downActions state widget
  actions.foldlM (applyDownAction widget) (state, [])

inductive UpAction
  | PrevOuterList
  | PrevExpandedList
  | ExitExpandedList
deriving DecidableEq, Repr

/-- The single-action computation at the top of
`handle_up_button_pressed`. -/
def upAction (state : FDPState) (widget : FileDependentPanel) :
    Option UpAction :=
  match state.expanded_file with
  | some expanded => do
      let entry ← widget.files[state.selected_file_index.1]?
      let at_expanded_file := entry.id = expanded
      if at_expanded_file then
        match state.selected_file_index.2 with
        | some 0 => pure UpAction.ExitExpandedList
        | none => pure UpAction.PrevOuterList
        | some _ => pure UpAction.PrevExpandedList
      else
        pure UpAction.PrevOuterList
  | none => pure UpAction.PrevOuterList

/-- `handle_up_button_pressed`: applies the single selected action. -/
def handle_up_button_pressed (state : FDPState)
    (widget : FileDependentPanel) : Option (FDPState × List AppEvent) :=
  match upAction state widget with
  | none => none
  | some UpAction.PrevOuterList =>
      if state.selected_file_index.1 > 0 then
        let stateDec : FDPState :=
          { state with selected_file_index :=
              (state.selected_file_index.1 - 1, state.selected_file_index.2) }
        match stateDec.expanded_file with
        | some expanded => do
            let selected_file ←
              widget.files[stateDec.selected_file_index.1]?
            if selected_file.id = expanded then do
              let last ← usizeSub1 selected_file.dependency_chain.length
              let stateIn : FDPState :=
                { stateDec with selected_file_index :=
                    (stateDec.selected_file_index.1, some last) }
              let e ← view_file_event stateIn last widget
              pure (stateIn, [e])
            else
              pure (stateDec, [])
        | none => pure (stateDec, [])
      else
        some (state, [])
  | some UpAction.PrevExpandedList =>
      match state.selected_file_index.2 with
      | some index =>
          if index > 0 then do
            let stateDec : FDPState :=
              { state with selected_file_index :=
                  (state.selected_file_index.1, some (index - 1)) }
            let e1 ← stop_view_file_event stateDec index widget
            let e2 ← view_file_event stateDec (index - 1) widget
            pure (stateDec, [e1, e2])
          else
            some (state, [])
      | none => some (state, [])
  | some UpAction.ExitExpandedList => do
      let index ← state.selected_file_index.2
      let e ← stop_view_file_event state index widget
      pure ({ state with selected_file_index :=
                (state.selected_file_index.1, none) },
            [e])

/-- The `SelectDependentFile` arm of the navigator's `handle_event`:
toggle the expansion marker. -/
def handle_select_dependent_file (state : FDPState)
    (file : RecomplileDependency) : FDPState :=
  match state.expanded_file with
  | some expanded =>
      if expanded = file.id then { state with expanded_file := none }
      else { state with expanded_file := some file.id }
  | none => { state with expanded_file := some file.id }

/-! ## Dependency cause panel
(src/ui/src/components/dependency_cause_panel.rs)

`handle_event` may call `adapter.get_dependency_causes(source, sink,
reason)`; the calls made while handling one event are collected as a list
of argument triples.  The `unreachable!()` hit when a dependent is
selected with no anchored source file is modelled by `none`. -/

abbrev AdapterRequest :=
  FilePath × FilePath × RecomplileDependencyReason

structure DependencyCausePanel where
  source_file : Option FilePath
deriving DecidableEq, Repr

structure DCPState where
  dependency_causes : List DependencyCause
  viewing_recompile_dependency_file : Option FilePath
deriving DecidableEq, Repr

def DCPState.initial : DCPState :=
  { dependency_causes := [], viewing_recompile_dependency_file := none }

def dcp_handle_event (state : DCPState) (widget : DependencyCausePanel)
    (event : AppEvent) : Option (DCPState × List AdapterRequest) :=
  match event with
  | AppEvent.SelectDependentFile recompile_dependency =>
      match widget.source_file with
      | some source =>
          some (state,
            [(recompile_dependency.path, source, recompile_dependency.reason)])
      | none => none
  | AppEvent.GetDependencyCausesDone causes =>
      some ({ state with dependency_causes := causes }, [])
  | AppEvent.ViewDependentFile dependency_link =>
      some ({ state with
              viewing_recompile_dependency_file := some dependency_link.sink },
            [])
  | AppEvent.StopViewDependentFile _ =>
      some ({ state with viewing_recompile_dependency_file := none }, [])
  | AppEvent.Cancel => some (DCPState.initial, [])
  | _ => some (state, [])

/-! ## Theorems -/

theorem adapter_run_from_ids (s : AdapterState) (calls : List AdapterCall) :
    (adapter_run_from s calls).map Prod.fst =
      List.range' s.request_sequence_id calls.length := by
  induction calls generalizing s with
  | nil => simp [adapter_run_from]
  | cons c cs ih =>
      simp [adapter_run_from, adapter_call, ih, List.range']

/-- Claim C9: for every sequence of calls to initialize, listFiles and
fetchDependencyCauses on a single adapter instance, the sequence ids
attached to the outbound requests, in issue order, are exactly
0, 1, 2, ... -/
theorem C9_theorem (calls : List AdapterCall) :
    (adapter_run calls).map Prod.fst = List.range calls.length := by
  rw [adapter_run, adapter_run_from_ids, List.range_eq_range']

/-- Claim C1 counterexample: with one request of id 0 awaiting resolution,
a line that parses as a response header but carries id 1 is not discarded:
the wait stops with a mismatch error instead of reading on to the
following line with id 0. -/
theorem C1_counterexample :
    wait_for_response ["S[1]:x\n", "S[0]:y\n"] 0 = WaitResult.mismatch 0 1 ∧
      wait_for_response ["S[1]:x\n", "S[0]:y\n"] 0 ≠ WaitResult.ok "y" := by
  constructor
  · decide
  · decide

/-- Claim C1 (amended): while a request with id N awaits resolution, lines
that fail to parse as a response header are discarded and the adapter
keeps reading; but the first line that parses resolves the wait: with the
payload when its embedded id is N, and with a mismatch error (not by
further reading) when its id differs. -/
theorem C1_theorem (junk rest : List String) (id rid : Nat) (line p : String)
    (hjunk : ∀ l ∈ junk, parseResponseLine l = none)
    (hline : parseResponseLine line = some (rid, p)) :
    wait_for_response (junk ++ line :: rest) id =
      if rid = id then WaitResult.ok p else WaitResult.mismatch id rid := by
  induction junk with
  | nil => simp [wait_for_response, hline]
  | cons l ls ih =>
      have hl : parseResponseLine l = none := hjunk l (by simp)
      have hrest : ∀ x ∈ ls, parseResponseLine x = none := by
        intro x hx
        exact hjunk x (by simp [hx])
      simpa [wait_for_response, hl] using ih hrest

/-- Claim C1 witness: one malformed line followed by a matching line id 0
resolves with the matching payload. -/
theorem C1_witness :
    wait_for_response ["garbage", "S[0]:hi\n"] 0 = WaitResult.ok "hi" := by
  have h := C1_theorem ["garbage"] [] 0 0 "S[0]:hi\n" "hi"
    (by decide) (by decide)
  simpa using h

/-- Claim C7: from `DependentsBrowsing` with the dependents-view search in
`Committed`, one cancel sets that search to `Idle` while staying in
`DependentsBrowsing` with the navigation anchor kept; a second cancel
moves to `FileBrowsing` and clears the anchor. -/
theorem C7_theorem (g : GlobalState) (q : String)
    (hsm : g.state_machine = StateMachine.FileDependentsView)
    (hsearch : g.file_dependent_panel_search = SearchInputState.search q) :
    (app_state_handle_event g AppEvent.Cancel).state_machine =
        StateMachine.FileDependentsView ∧
    (app_state_handle_event g AppEvent.Cancel).file_dependent_panel_search =
        SearchInputState.noneState ∧
    (app_state_handle_event g AppEvent.Cancel).selected_dependency_source =
        g.selected_dependency_source ∧
    (app_state_handle_event (app_state_handle_event g AppEvent.Cancel)
        AppEvent.Cancel).state_machine = StateMachine.FilePanelView ∧
    (app_state_handle_event (app_state_handle_event g AppEvent.Cancel)
        AppEvent.Cancel).selected_dependency_source = none := by
  simp [app_state_handle_event, hsm, hsearch, SearchInputState.is_active,
    SearchInputState.cancel]

/-- Claim C7 witness: the two cancels evaluated on a concrete state with a
committed dependents-view search. -/
theorem C7_witness :
    (app_state_handle_event
        { state_machine := StateMachine.FileDependentsView
          selected_dependency_source := some ⟨"foo", []⟩
          file_panel_search := SearchInputState.noneState
          file_dependent_panel_search := SearchInputState.search "bar"
          files_list := none } AppEvent.Cancel).state_machine =
      StateMachine.FileDependentsView := by
  exact (C7_theorem _ "bar" rfl rfl).1

/-- Claim C3 counterexample: from the state with cursor `(1, Some 0)` and
entry id "two" expanded, toggling that entry clears `expanded_file` but
leaves `innerIndex = Some 0`, not `None` as the claim requires. -/
theorem C3_counterexample :
    (handle_select_dependent_file
        ⟨(1, some 0), some "two"⟩
        ⟨"two", "two", RecomplileDependencyReason.compile, []⟩).expanded_file =
      none ∧
    (handle_select_dependent_file
        ⟨(1, some 0), some "two"⟩
        ⟨"two", "two", RecomplileDependencyReason.compile,
          []⟩).selected_file_index.2 = some 0 := by
  constructor
  · rfl
  · rfl

/-- Claim C3 (amended): at most one entry can be expanded at a time
(`expanded_file` holds a single optional id); the select/toggle operation
on the currently expanded entry sets `expanded_file = None` but leaves
`innerIndex` unchanged, so after a collapse with an open inner cursor the
invariant that `innerIndex` is `Some` only while an entry is expanded does
not hold. -/
theorem C3_theorem (state : FDPState) (file : RecomplileDependency)
    (hexp : state.expanded_file = some file.id) :
    handle_select_dependent_file state file =
      { state with expanded_file := none } := by
  simp [handle_select_dependent_file, hexp]

/-- Claim C3 witness: the amended toggle behaviour at a concrete state. -/
theorem C3_witness :
    handle_select_dependent_file
        ⟨(0, some 1), some "a"⟩
        ⟨"a", "a", RecomplileDependencyReason.exports, []⟩ =
      ⟨(0, some 1), none⟩ := by
  exact C3_theorem ⟨(0, some 1), some "a"⟩
    ⟨"a", "a", RecomplileDependencyReason.exports, []⟩ rfl

/-- Claim C6 counterexample: processing a `startView` event while a file
is anchored issues no adapter request at all (the request list is empty),
contradicting the claim that exactly one `fetchDependencyCauses` request
is issued on `startView`. -/
theorem C6_counterexample :
    dcp_handle_event DCPState.initial ⟨some "anchor"⟩
        (AppEvent.ViewDependentFile ⟨DependencyType.compile, "a", "b"⟩) =
      some (⟨[], some "b"⟩, []) ∧
    ∀ req : AdapterRequest, ([] : List AdapterRequest) ≠ [req] := by
  constructor
  · rfl
  · intro req h
    exact absurd h (by simp)

/-- Claim C6 (amended): the cause/detail component issues its single
`fetchDependencyCauses` request when a dependent is selected for expansion
(`SelectDependentFile`), with source = the dependent's own path, sink =
the navigation anchor's path and reason = the dependent's reason; on
`startView(link)` it issues no request and only records `link.sink` as the
file currently being viewed. -/
theorem C6_theorem (state : DCPState) (source : FilePath)
    (rd : RecomplileDependency) (link : DependencyLink) :
    dcp_handle_event state ⟨some source⟩
        (AppEvent.SelectDependentFile rd) =
      some (state, [(rd.path, source, rd.reason)]) ∧
    dcp_handle_event state ⟨some source⟩
        (AppEvent.ViewDependentFile link) =
      some ({ state with
              viewing_recompile_dependency_file := some link.sink }, []) := by
  constructor
  · rfl
  · rfl

/-- Claim C6 witness: the amended behaviour at concrete inputs. -/
theorem C6_witness :
    dcp_handle_event DCPState.initial ⟨some "anchor"⟩
        (AppEvent.SelectDependentFile
          ⟨"id1", "dep.ex", RecomplileDependencyReason.compile, []⟩) =
      some (DCPState.initial,
        [("dep.ex", "anchor", RecomplileDependencyReason.compile)]) := by
  exact (C6_theorem DCPState.initial "anchor"
    ⟨"id1", "dep.ex", RecomplileDependencyReason.compile, []⟩
    ⟨DependencyType.compile, "a", "b"⟩).1

/-- Claim C2: with 3 outer entries, entry 1 expanded with a 3-link chain
and cursor `(1, Some 1)`, one move-down emits exactly `stopView(chain[1])`
then `startView(chain[2])` and leaves the cursor at `(1, Some 2)`; a
further move-down emits exactly `stopView(chain[2])` and leaves the
cursor at `(2, None)`. -/
theorem C2_theorem (src : FilePath) (a b c : RecomplileDependency)
    (x y z : DependencyLink) (hchain : b.dependency_chain = [x, y, z]) :
    handle_down_button_pressed ⟨(1, some 1), some b.id⟩ ⟨src, [a, b, c]⟩ =
      some (⟨(1, some 2), some b.id⟩,
        [AppEvent.StopViewDependentFile y, AppEvent.ViewDependentFile z]) ∧
    handle_down_button_pressed ⟨(1, some 2), some b.id⟩ ⟨src, [a, b, c]⟩ =
      some (⟨(2, none), some b.id⟩, [AppEvent.StopViewDependentFile z]) := by
  constructor
  · simp [handle_down_button_pressed, downActions, applyDownAction,
      stop_view_file_event, view_file_event, hchain, usizeSub1]
  · simp [handle_down_button_pressed, downActions, applyDownAction,
      stop_view_file_event, view_file_event, hchain, usizeSub1]

/-- Claim C2 witness: the two move-downs evaluated on the concrete
navigator of the spec scenario. -/
theorem C2_witness :
    handle_down_button_pressed ⟨(1, some 1), some "two"⟩
        ⟨"source",
         [⟨"one", "one", RecomplileDependencyReason.compile, []⟩,
          ⟨"two", "two", RecomplileDependencyReason.compile,
            [⟨DependencyType.compile, "source", "two.one"⟩,
             ⟨DependencyType.compile, "two.one", "two.two"⟩,
             ⟨DependencyType.compile, "two.two", "two.three"⟩]⟩,
          ⟨"three", "three", RecomplileDependencyReason.compile, []⟩]⟩ =
      some (⟨(1, some 2), some "two"⟩,
        [AppEvent.StopViewDependentFile
           ⟨DependencyType.compile, "two.one", "two.two"⟩,
         AppEvent.ViewDependentFile
           ⟨DependencyType.compile, "two.two", "two.three"⟩]) := by
  have h := C2_theorem "source"
    ⟨"one", "one", RecomplileDependencyReason.compile, []⟩
    ⟨"two", "two", RecomplileDependencyReason.compile,
      [⟨DependencyType.compile, "source", "two.one"⟩,
       ⟨DependencyType.compile, "two.one", "two.two"⟩,
       ⟨DependencyType.compile, "two.two", "two.three"⟩]⟩
    ⟨"three", "three", RecomplileDependencyReason.compile, []⟩
    ⟨DependencyType.compile, "source", "two.one"⟩
    ⟨DependencyType.compile, "two.one", "two.two"⟩
    ⟨DependencyType.compile, "two.two", "two.three"⟩ rfl
  exact h.1

/-- Claim C4 counterexample: with two entries, entry 1 expanded with a
one-link chain, cursor `(1, Some 0)` (inner index at the last chain
position and outer index at the last entry), a move-down emits no event at
all and leaves the state unchanged — in particular it does not emit
`stopView(chain[0])` and does not clear the inner index, contradicting
the claim. -/
theorem C4_counterexample :
    handle_down_button_pressed ⟨(1, some 0), some "two"⟩
        ⟨"source",
         [⟨"one", "one", RecomplileDependencyReason.compile, []⟩,
          ⟨"two", "two", RecomplileDependencyReason.compile,
            [⟨DependencyType.compile, "source", "two.one"⟩]⟩]⟩ =
      some (⟨(1, some 0), some "two"⟩, []) := by
  rfl

/-- Claim C4 (amended): with the inner index at the last position of the
expanded entry's chain, a move-down behaves as follows: when the outer
index is not at the last entry it emits `stopView(chain[innerIndex])`,
clears the inner index and increments the outer index; when the outer
index is already at the last entry it does nothing at all — no event is
emitted and the inner index is not cleared. -/
theorem C4_theorem (widget : FileDependentPanel) (outer k : Nat)
    (f : RecomplileDependency) (link : DependencyLink)
    (hf : widget.files[outer]? = some f)
    (hexp : (⟨(outer, some k), some f.id⟩ : FDPState).expanded_file =
      some f.id)
    (hlen : f.dependency_chain.length = k + 1)
    (hlink : f.dependency_chain[k]? = some link) :
    handle_down_button_pressed ⟨(outer, some k), some f.id⟩ widget =
      if outer = widget.files.length - 1 then
        some (⟨(outer, some k), some f.id⟩, [])
      else
        some (⟨(outer + 1, none), some f.id⟩,
          [AppEvent.StopViewDependentFile link]) := by
  have houter : outer < widget.files.length := by
    have := List.getElem?_eq_some_iff.mp hf
    exact this.1
  have hne : f.dependency_chain ≠ [] := by
    intro h
    rw [h] at hlen
    simp at hlen
  by_cases hlast : outer = widget.files.length - 1
  · subst hlast
    simp [handle_down_button_pressed, downActions, hf, hlen, hne,
      usizeSub1]
  · have houter2 : outer < widget.files.length - 1 := by omega
    have hfs : widget.files ≠ [] := by
      intro h
      rw [h] at houter
      simp at houter
    simp [handle_down_button_pressed, downActions, applyDownAction,
      stop_view_file_event, view_file_event, hf, hlen, hne, usizeSub1,
      hlast, hlink, houter2, hfs]

/-- Claim C4 witness: the amended move-down at a concrete state whose
outer index is not last: the stop event is emitted, the inner index
cleared and the outer index incremented. -/
theorem C4_witness :
    handle_down_button_pressed ⟨(0, some 0), some "one"⟩
        ⟨"source",
         [⟨"one", "one", RecomplileDependencyReason.compile,
            [⟨DependencyType.compile, "source", "one.one"⟩]⟩,
          ⟨"two", "two", RecomplileDependencyReason.compile, []⟩]⟩ =
      some (⟨(1, none), some "one"⟩,
        [AppEvent.StopViewDependentFile
          ⟨DependencyType.compile, "source", "one.one"⟩]) := by
  have h := C4_theorem
    ⟨"source",
     [⟨"one", "one", RecomplileDependencyReason.compile,
        [⟨DependencyType.compile, "source", "one.one"⟩]⟩,
      ⟨"two", "two", RecomplileDependencyReason.compile, []⟩]⟩
    0 0
    ⟨"one", "one", RecomplileDependencyReason.compile,
      [⟨DependencyType.compile, "source", "one.one"⟩]⟩
    ⟨DependencyType.compile, "source", "one.one"⟩
    rfl rfl rfl rfl
  simpa using h

/-- The event sequence of the C8 scenario: begin-search, append the
characters of "foo", commit. -/
def c8events : List AppEvent :=
  [AppEvent.EnterSearch, AppEvent.SearchInput 'f', AppEvent.SearchInput 'o',
   AppEvent.SearchInput 'o', AppEvent.SubmitSearch]

/-- Claim C8: from `FileBrowsing` with the file-panel search idle and a
non-empty files list, dispatching begin-search, append f, append o,
append o, commit leaves the file-panel search committed at "foo", the
file-list cursor at 0, and the state machine still in `FileBrowsing`. -/
theorem C8_theorem (cursor : Nat) (g : GlobalState) (fs : List FileEntry)
    (hsm : g.state_machine = StateMachine.FilePanelView)
    (hsearch : g.file_panel_search = SearchInputState.noneState)
    (hfs : fs ≠ []) :
    (c8events.foldl (filePanelDispatch (some fs)) (cursor, g)).2.file_panel_search =
        SearchInputState.search "foo" ∧
    (c8events.foldl (filePanelDispatch (some fs)) (cursor, g)).1 = 0 ∧
    (c8events.foldl (filePanelDispatch (some fs)) (cursor, g)).2.state_machine =
        StateMachine.FilePanelView := by
  obtain ⟨sm, sds, fps, fdps, fl⟩ := g
  simp only at hsm hsearch
  subst hsm
  subst hsearch
  have hempty : fs.isEmpty = false := by
    simpa [List.isEmpty_iff] using hfs
  simp [c8events, filePanelDispatch, file_panel_handle_event,
    app_state_handle_event, SearchInputState.prompt_begin,
    SearchInputState.prompt_add, SearchInputState.searchCommit, hempty]
  rfl

/-- Claim C8 witness: the scenario evaluated from cursor 2 on a concrete
state with one file. -/
theorem C8_witness :
    (c8events.foldl (filePanelDispatch (some [⟨"a", []⟩]))
        (2, GlobalState.initial)).2.file_panel_search =
      SearchInputState.search "foo" := by
  exact (C8_theorem 2 GlobalState.initial [⟨"a", []⟩] rfl rfl
    (by simp)).1

/-! ## Ordering of view and stop-view emissions (claim C5) -/

def isStopEvent : AppEvent → Bool
  | AppEvent.StopViewDependentFile _ => true
  | _ => false

def isStartEvent : AppEvent → Bool
  | AppEvent.ViewDependentFile _ => true
  | _ => false

/-- In an event list, every stop-view event occurs strictly before every
start-view event. -/
def stopsBeforeStarts (evs : List AppEvent) : Prop :=
  ∀ i j, i < evs.length → j < evs.length →
    isStopEvent (evs.getD i AppEvent.Cancel) = true →
    isStartEvent (evs.getD j AppEvent.Cancel) = true → i < j

theorem not_stop_and_start (e : AppEvent) :
    ¬(isStopEvent e = true ∧ isStartEvent e = true) := by
  cases e <;> simp [isStopEvent, isStartEvent]

theorem stopsBeforeStarts_nil : stopsBeforeStarts [] := by
  intro i j hi _ _ _
  simp at hi

theorem stopsBeforeStarts_single (e : AppEvent) : stopsBeforeStarts [e] := by
  intro i j hi hj hstop hstart
  simp at hi hj
  subst hi
  subst hj
  exact absurd ⟨hstop, hstart⟩ (not_stop_and_start e)

theorem stopsBeforeStarts_pair (a b : DependencyLink) :
    stopsBeforeStarts
      [AppEvent.StopViewDependentFile a, AppEvent.ViewDependentFile b] := by
  intro i j hi hj hstop hstart
  simp at hi hj
  interval_cases i <;> interval_cases j <;>
    simp_all [isStopEvent, isStartEvent]

theorem stop_view_file_event_shape (s : FDPState) (i : Nat)
    (w : FileDependentPanel) (e : AppEvent)
    (h : stop_view_file_event s i w = some e) :
    ∃ l, e = AppEvent.StopViewDependentFile l := by
  unfold stop_view_file_event at h
  rcases hf : w.files[s.selected_file_index.1]? with _ | entry
  · rw [hf] at h
    simp at h
  · rw [hf] at h
    simp only [Option.bind_eq_bind', Option.some_bind] at h
    rcases hl : entry.dependency_chain[i]? with _ | link
    · rw [hl] at h
      simp at h
    · rw [hl] at h
      simp at h
      exact ⟨link, h.symm⟩

theorem view_file_event_shape (s : FDPState) (i : Nat)
    (w : FileDependentPanel) (e : AppEvent)
    (h : view_file_event s i w = some e) :
    ∃ l, e = AppEvent.ViewDependentFile l := by
  unfold view_file_event at h
  rcases hf : w.files[s.selected_file_index.1]? with _ | entry
  · rw [hf] at h
    simp at h
  · rw [hf] at h
    simp only [Option.bind_eq_bind', Option.some_bind] at h
    rcases hl : entry.dependency_chain[i]? with _ | link
    · rw [hl] at h
      simp at h
    · rw [hl] at h
      simp at h
      exact ⟨link, h.symm⟩

theorem downActions_shape (s : FDPState) (w : FileDependentPanel)
    (acts : List DownAction) (h : downActions s w = some acts) :
    acts = [] ∨ acts = [DownAction.NextOuterList] ∨
      acts = [DownAction.NextExpandedList] ∨
      acts = [DownAction.ExitExpandedList, DownAction.NextOuterList] := by
  unfold downActions at h
  rcases hexp : s.expanded_file with _ | expanded <;> rw [hexp] at h
  · simp at h
    exact Or.inr (Or.inl h.symm)
  · simp only [Option.bind_eq_bind', Option.some_bind] at h
    rcases hf : w.files[s.selected_file_index.1]? with _ | entry
    · rw [hf] at h
      simp at h
    · rw [hf] at h
      simp only [Option.bind_eq_bind', Option.some_bind] at h
      by_cases hid : entry.id = expanded
      · rw [if_pos hid] at h
        rcases hinner : s.selected_file_index.2 with _ | k <;>
          rw [hinner] at h
        · simp at h
          exact Or.inr (Or.inr (Or.inl h.symm))
        · by_cases hlen : entry.dependency_chain.length = 0
          · simp [usizeSub1, hlen] at h
          · simp only [usizeSub1, hlen, if_false, Option.bind_eq_bind', Option.some_bind] at h
            by_cases hk : k = entry.dependency_chain.length - 1
            · rw [if_pos hk] at h
              by_cases hout : s.selected_file_index.1 = w.files.length - 1
              · rw [if_pos hout] at h
                simp at h
                exact Or.inl h
              · rw [if_neg hout] at h
                simp at h
                exact Or.inr (Or.inr (Or.inr h.symm))
            · rw [if_neg hk] at h
              simp at h
              exact Or.inr (Or.inr (Or.inl h.symm))
      · rw [if_neg hid] at h
        simp at h
        exact Or.inr (Or.inl h.symm)

theorem applyDownAction_nextOuter (w : FileDependentPanel)
    (st : FDPState) (evs : List AppEvent) :
    ∃ st2, applyDownAction w (st, evs) DownAction.NextOuterList =
      some (st2, evs) := by
  simp only [applyDownAction]
  by_cases hc : w.files.length ≠ 0 ∧
      st.selected_file_index.1 < w.files.length - 1
  · exact ⟨_, by rw [if_pos hc]⟩
  · exact ⟨_, by rw [if_neg hc]⟩

theorem applyDownAction_nextExpanded (w : FileDependentPanel)
    (st : FDPState) (evs : List AppEvent) (res : FDPState × List AppEvent)
    (h : applyDownAction w (st, evs) DownAction.NextExpandedList =
      some res) :
    (∃ a b, res.2 = evs ++ [AppEvent.StopViewDependentFile a,
        AppEvent.ViewDependentFile b]) ∨
      (∃ b, res.2 = evs ++ [AppEvent.ViewDependentFile b]) := by
  simp only [applyDownAction] at h
  rcases hi : st.selected_file_index.2 with _ | index <;>
      simp only [hi] at h
  · rcases he : view_file_event st 0 w with _ | e <;>
        simp only [he, Option.bind_eq_bind', Option.some_bind,
          Option.none_bind] at h
    · exact absurd h (by simp)
    · obtain ⟨b, hb⟩ := view_file_event_shape st 0 w e he
      subst hb
      refine Or.inr ⟨b, ?_⟩
      have hres := (Option.some_injective _) h
      rw [← hres]
  · rcases he1 : stop_view_file_event st index w with _ | e1 <;>
        simp only [he1, Option.bind_eq_bind', Option.some_bind,
          Option.none_bind] at h
    · exact absurd h (by simp)
    · rcases he2 : view_file_event st (index + 1) w with _ | e2 <;>
          simp only [he2, Option.bind_eq_bind', Option.some_bind,
            Option.none_bind] at h
      · exact absurd h (by simp)
      · obtain ⟨a, ha⟩ := stop_view_file_event_shape st index w e1 he1
        obtain ⟨b, hb⟩ := view_file_event_shape st (index + 1) w e2 he2
        subst ha
        subst hb
        have hres := (Option.some_injective _) h
        refine Or.inl ⟨a, b, ?_⟩
        rw [← hres]

theorem applyDownAction_exit (w : FileDependentPanel)
    (st : FDPState) (evs : List AppEvent) (res : FDPState × List AppEvent)
    (h : applyDownAction w (st, evs) DownAction.ExitExpandedList =
      some res) :
    ∃ a, res.2 = evs ++ [AppEvent.StopViewDependentFile a] := by
  simp only [applyDownAction] at h
  rcases hi : st.selected_file_index.2 with _ | index <;>
      simp only [hi, Option.bind_eq_bind', Option.some_bind,
        Option.none_bind] at h
  · exact absurd h (by simp)
  · rcases he : stop_view_file_event st index w with _ | e <;>
        simp only [he, Option.bind_eq_bind', Option.some_bind,
          Option.none_bind] at h
    · exact absurd h (by simp)
    · obtain ⟨a, ha⟩ := stop_view_file_event_shape st index w e he
      subst ha
      have hres := (Option.some_injective _) h
      refine ⟨a, ?_⟩
      rw [← hres]

theorem handle_down_events_shape (s : FDPState) (w : FileDependentPanel)
    (res : FDPState × List AppEvent)
    (h : handle_down_button_pressed s w = some res) :
    res.2 = [] ∨ (∃ l, res.2 = [AppEvent.ViewDependentFile l]) ∨
      (∃ l, res.2 = [AppEvent.StopViewDependentFile l]) ∨
      (∃ l l2, res.2 = [AppEvent.StopViewDependentFile l,
        AppEvent.ViewDependentFile l2]) := by
  unfold handle_down_button_pressed at h
  rcases hda : downActions s w with _ | acts
  · rw [hda] at h
    simp at h
  · rw [hda] at h
    simp only [Option.bind_eq_bind', Option.some_bind] at h
    rcases downActions_shape s w acts hda with h0 | h1 | h2 | h3
    · subst h0
      simp only [List.foldlM_nil] at h
      have hres := (Option.some_injective _) h
      rw [← hres]
      exact Or.inl rfl
    · subst h1
      simp only [List.foldlM_cons, List.foldlM_nil,
        Option.bind_eq_bind', Option.some_bind] at h
      obtain ⟨st2, hst2⟩ := applyDownAction_nextOuter w s []
      rw [hst2] at h
      simp only [Option.bind_eq_bind', Option.some_bind] at h
      have hres := (Option.some_injective _) h
      rw [← hres]
      exact Or.inl rfl
    · subst h2
      simp only [List.foldlM_cons, List.foldlM_nil,
        Option.bind_eq_bind', Option.some_bind] at h
      rcases ha : applyDownAction w (s, []) DownAction.NextExpandedList
          with _ | mid
      · rw [ha] at h
        simp at h
      · rw [ha] at h
        simp only [Option.bind_eq_bind', Option.some_bind] at h
        have hres := (Option.some_injective _) h
        rcases applyDownAction_nextExpanded w s [] mid ha with
          ⟨a, b, hab⟩ | ⟨b, hb⟩
        · rw [← hres]
          exact Or.inr (Or.inr (Or.inr ⟨a, b, by simpa using hab⟩))
        · rw [← hres]
          exact Or.inr (Or.inl ⟨b, by simpa using hb⟩)
    · subst h3
      simp only [List.foldlM_cons, List.foldlM_nil,
        Option.bind_eq_bind', Option.some_bind] at h
      rcases ha : applyDownAction w (s, []) DownAction.ExitExpandedList
          with _ | mid
      · rw [ha] at h
        simp at h
      · rw [ha] at h
        simp only [Option.bind_eq_bind', Option.some_bind] at h
        obtain ⟨a, hmid⟩ := applyDownAction_exit w s [] mid ha
        obtain ⟨st2, hst2⟩ := applyDownAction_nextOuter w mid.1 mid.2
        rw [show (mid.1, mid.2) = mid from rfl] at hst2
        rw [hst2] at h
        simp only [Option.bind_eq_bind', Option.some_bind] at h
        have hres := (Option.some_injective _) h
        rw [← hres]
        exact Or.inr (Or.inr (Or.inl ⟨a, by simpa using hmid⟩))

theorem handle_up_events_shape (s : FDPState) (w : FileDependentPanel)
    (res : FDPState × List AppEvent)
    (h : handle_up_button_pressed s w = some res) :
    res.2 = [] ∨ (∃ l, res.2 = [AppEvent.ViewDependentFile l]) ∨
      (∃ l, res.2 = [AppEvent.StopViewDependentFile l]) ∨
      (∃ l l2, res.2 = [AppEvent.StopViewDependentFile l,
        AppEvent.ViewDependentFile l2]) := by
  unfold handle_up_button_pressed at h
  rcases hua : upAction s w with _ | act <;> rw [hua] at h
  · simp at h
  · cases act
    · simp only [] at h
      split at h
      · split at h
        · rcases hf : w.files[s.selected_file_index.1 - 1]? with _ | entry <;>
              rw [hf] at h
          · simp at h
          · simp only [Option.bind_eq_bind', Option.some_bind] at h
            split at h
            · rcases hu : usizeSub1 entry.dependency_chain.length
                  with _ | last <;> rw [hu] at h
              · simp at h
              · simp only [Option.bind_eq_bind', Option.some_bind] at h
                rcases he : view_file_event
                    ⟨(s.selected_file_index.1 - 1, some last),
                      s.expanded_file⟩ last w with _ | e <;> rw [he] at h
                · simp at h
                · simp only [Option.bind_eq_bind', Option.some_bind] at h
                  obtain ⟨b, hb⟩ := view_file_event_shape _ _ _ _ he
                  have hres := (Option.some_injective _) h
                  rw [← hres, hb]
                  exact Or.inr (Or.inl ⟨b, rfl⟩)
            · have hres := (Option.some_injective _) h
              rw [← hres]
              exact Or.inl rfl
        · have hres := (Option.some_injective _) h
          rw [← hres]
          exact Or.inl rfl
      · have hres := (Option.some_injective _) h
        rw [← hres]
        exact Or.inl rfl
    · simp only [] at h
      split at h
      · rename_i _x index _hinner
        split at h
        · rcases he1 : stop_view_file_event
              ⟨(s.selected_file_index.1, some (index - 1)), s.expanded_file⟩
              index w with _ | e1 <;> rw [he1] at h
          · simp at h
          · simp only [Option.bind_eq_bind', Option.some_bind] at h
            rcases he2 : view_file_event
                ⟨(s.selected_file_index.1, some (index - 1)),
                  s.expanded_file⟩ (index - 1) w with _ | e2 <;>
                rw [he2] at h
            · simp at h
            · simp only [Option.bind_eq_bind', Option.some_bind] at h
              obtain ⟨a, ha⟩ := stop_view_file_event_shape _ _ _ _ he1
              obtain ⟨b, hb⟩ := view_file_event_shape _ _ _ _ he2
              have hres := (Option.some_injective _) h
              rw [← hres, ha, hb]
              exact Or.inr (Or.inr (Or.inr ⟨a, b, rfl⟩))
        · have hres := (Option.some_injective _) h
          rw [← hres]
          exact Or.inl rfl
      · have hres := (Option.some_injective _) h
        rw [← hres]
        exact Or.inl rfl
    · simp only [] at h
      rcases hi : s.selected_file_index.2 with _ | index <;> rw [hi] at h
      · simp at h
      · simp only [Option.bind_eq_bind', Option.some_bind] at h
        rcases he : stop_view_file_event s index w with _ | e <;>
            rw [he] at h
        · simp at h
        · simp only [Option.bind_eq_bind', Option.some_bind] at h
          obtain ⟨a, ha⟩ := stop_view_file_event_shape _ _ _ _ he
          have hres := (Option.some_injective _) h
          rw [← hres, ha]
          exact Or.inr (Or.inr (Or.inl ⟨a, rfl⟩))

/-- Claim C5: every move-down or move-up emission list keeps each
stop-view strictly before each start-view, so a consumer processing the
events in order never has two chain links simultaneously being viewed. -/
theorem C5_theorem :
    (∀ (s : FDPState) (w : FileDependentPanel)
        (res : FDPState × List AppEvent),
        handle_down_button_pressed s w = some res →
          stopsBeforeStarts res.2) ∧
    (∀ (s : FDPState) (w : FileDependentPanel)
        (res : FDPState × List AppEvent),
        handle_up_button_pressed s w = some res →
          stopsBeforeStarts res.2) := by
  constructor
  · intro s w res h
    rcases handle_down_events_shape s w res h with
      h0 | ⟨l, h1⟩ | ⟨l, h2⟩ | ⟨l, l2, h3⟩
    · rw [h0]
      exact stopsBeforeStarts_nil
    · rw [h1]
      exact stopsBeforeStarts_single _
    · rw [h2]
      exact stopsBeforeStarts_single _
    · rw [h3]
      exact stopsBeforeStarts_pair l l2
  · intro s w res h
    rcases handle_up_events_shape s w res h with
      h0 | ⟨l, h1⟩ | ⟨l, h2⟩ | ⟨l, l2, h3⟩
    · rw [h0]
      exact stopsBeforeStarts_nil
    · rw [h1]
      exact stopsBeforeStarts_single _
    · rw [h2]
      exact stopsBeforeStarts_single _
    · rw [h3]
      exact stopsBeforeStarts_pair l l2

/-- Claim C5 witness: the ordering property holds for the event list of a
concrete move-down that emits both a stop-view and a start-view. -/
theorem C5_witness :
    stopsBeforeStarts
      [AppEvent.StopViewDependentFile
         ⟨DependencyType.compile, "two.one", "two.two"⟩,
       AppEvent.ViewDependentFile
         ⟨DependencyType.compile, "two.two", "two.three"⟩] := by
  exact C5_theorem.1 ⟨(1, some 1), some "two"⟩
    ⟨"source",
     [⟨"one", "one", RecomplileDependencyReason.compile, []⟩,
      ⟨"two", "two", RecomplileDependencyReason.compile,
        [⟨DependencyType.compile, "source", "two.one"⟩,
         ⟨DependencyType.compile, "two.one", "two.two"⟩,
         ⟨DependencyType.compile, "two.two", "two.three"⟩]⟩,
      ⟨"three", "three", RecomplileDependencyReason.compile, []⟩]⟩
    (⟨(1, some 2), some "two"⟩,
     [AppEvent.StopViewDependentFile
        ⟨DependencyType.compile, "two.one", "two.two"⟩,
      AppEvent.ViewDependentFile
        ⟨DependencyType.compile, "two.two", "two.three"⟩])
    rfl

def navPrecondition (s : FDPState) (w : FileDependentPanel) : Prop :=
  s.selected_file_index.1 < w.files.length ∧
  (∀ (i : Nat) (entry : RecomplileDependency), w.files[i]? = some entry →
      s.expanded_file = some entry.id →
      0 < entry.dependency_chain.length) ∧
  (∀ (k : Nat) (entry : RecomplileDependency),
      s.selected_file_index.2 = some k →
      w.files[s.selected_file_index.1]? = some entry →
      s.expanded_file = some entry.id →
      k < entry.dependency_chain.length)

theorem view_file_event_total (s : FDPState) (i : Nat)
    (w : FileDependentPanel) (entry : RecomplileDependency)
    (hf : w.files[s.selected_file_index.1]? = some entry)
    (hi : i < entry.dependency_chain.length) :
    ∃ e, view_file_event s i w = some e := by
  unfold view_file_event
  rw [hf]
  simp only [Option.bind_eq_bind', Option.some_bind]
  rw [List.getElem?_eq_getElem hi]
  exact ⟨_, rfl⟩

theorem stop_view_file_event_total (s : FDPState) (i : Nat)
    (w : FileDependentPanel) (entry : RecomplileDependency)
    (hf : w.files[s.selected_file_index.1]? = some entry)
    (hi : i < entry.dependency_chain.length) :
    ∃ e, stop_view_file_event s i w = some e := by
  unfold stop_view_file_event
  rw [hf]
  simp only [Option.bind_eq_bind', Option.some_bind]
  rw [List.getElem?_eq_getElem hi]
  exact ⟨_, rfl⟩

theorem handle_down_total (s : FDPState) (w : FileDependentPanel)
    (hpre : navPrecondition s w) :
    (handle_down_button_pressed s w).isSome := by
  obtain ⟨h1, h2, h3⟩ := hpre
  obtain ⟨entry, hentry⟩ : ∃ e, w.files[s.selected_file_index.1]? = some e :=
    ⟨_, List.getElem?_eq_getElem h1⟩
  unfold handle_down_button_pressed
  rcases hexp : s.expanded_file with _ | exp
  · have hda : downActions s w = some [DownAction.NextOuterList] := by
      unfold downActions
      rw [hexp]
      rfl
    rw [hda]
    simp only [Option.bind_eq_bind', Option.some_bind, List.foldlM_cons,
      List.foldlM_nil]
    obtain ⟨st2, hst2⟩ := applyDownAction_nextOuter w s []
    rw [hst2]
    simp
  · by_cases hid : entry.id = exp
    · have hexpid : s.expanded_file = some entry.id := by rw [hexp, hid]
      have hlen : 0 < entry.dependency_chain.length :=
        h2 _ _ hentry hexpid
      rcases hinner : s.selected_file_index.2 with _ | k
      · have hda : downActions s w = some [DownAction.NextExpandedList] := by
          unfold downActions
          rw [hexp]
          simp only [Option.bind_eq_bind', Option.some_bind, hentry]
          simp [hid, hinner]
        rw [hda]
        simp only [Option.bind_eq_bind', Option.some_bind, List.foldlM_cons,
          List.foldlM_nil]
        obtain ⟨e, he⟩ := view_file_event_total s 0 w entry hentry hlen
        simp only [applyDownAction, hinner, he, Option.bind_eq_bind',
          Option.some_bind]
        simp
      · have hk : k < entry.dependency_chain.length :=
          h3 _ _ hinner hentry hexpid
        by_cases hklast : k = entry.dependency_chain.length - 1
        · by_cases hout : s.selected_file_index.1 = w.files.length - 1
          · have hda : downActions s w = some [] := by
              unfold downActions
              rw [hexp]
              simp only [Option.bind_eq_bind', Option.some_bind, hentry]
              simp [hid, hinner, usizeSub1, hklast, hout, List.length_pos.mp hlen]
            rw [hda]
            simp
          · have hda : downActions s w =
                some [DownAction.ExitExpandedList,
                  DownAction.NextOuterList] := by
              unfold downActions
              rw [hexp]
              simp only [Option.bind_eq_bind', Option.some_bind, hentry]
              simp [hid, hinner, usizeSub1, hklast, hout, List.length_pos.mp hlen]
            rw [hda]
            simp only [Option.bind_eq_bind', Option.some_bind,
              List.foldlM_cons, List.foldlM_nil]
            obtain ⟨e, he⟩ := stop_view_file_event_total s k w entry hentry hk
            simp only [applyDownAction, hinner, he, Option.bind_eq_bind',
              Option.some_bind]
            simp only [Option.pure_def, Option.some_bind]
            split <;> simp
        · have hk1 : k + 1 < entry.dependency_chain.length := by omega
          have hda : downActions s w =
              some [DownAction.NextExpandedList] := by
            unfold downActions
            rw [hexp]
            simp only [Option.bind_eq_bind', Option.some_bind, hentry]
            simp [hid, hinner, usizeSub1, hklast, List.length_pos.mp hlen]
          rw [hda]
          simp only [Option.bind_eq_bind', Option.some_bind,
            List.foldlM_cons, List.foldlM_nil]
          obtain ⟨e1, he1⟩ := stop_view_file_event_total s k w entry hentry hk
          obtain ⟨e2, he2⟩ := view_file_event_total s (k + 1) w entry hentry
            hk1
          simp only [applyDownAction, hinner, he1, he2,
            Option.bind_eq_bind', Option.some_bind]
          simp
    · have hda : downActions s w = some [DownAction.NextOuterList] := by
        unfold downActions
        rw [hexp]
        simp only [Option.bind_eq_bind', Option.some_bind, hentry]
        simp [hid]
      rw [hda]
      simp only [Option.bind_eq_bind', Option.some_bind, List.foldlM_cons,
        List.foldlM_nil]
      obtain ⟨st2, hst2⟩ := applyDownAction_nextOuter w s []
      rw [hst2]
      simp


theorem up_prevOuter_total (s : FDPState) (w : FileDependentPanel)
    (h1 : s.selected_file_index.1 < w.files.length)
    (h2 : ∀ (i : Nat) (entry : RecomplileDependency),
        w.files[i]? = some entry → s.expanded_file = some entry.id →
        0 < entry.dependency_chain.length)
    (hact : upAction s w = some UpAction.PrevOuterList) :
    (handle_up_button_pressed s w).isSome := by
  unfold handle_up_button_pressed
  rw [hact]
  simp only []
  by_cases houter : s.selected_file_index.1 > 0
  · rw [if_pos houter]
    rcases hexp : s.expanded_file with _ | exp
    · simp
    · simp only []
      have houter2 : s.selected_file_index.1 - 1 < w.files.length := by omega
      obtain ⟨entry2, hentry2⟩ :
          ∃ e, w.files[s.selected_file_index.1 - 1]? = some e :=
        ⟨_, List.getElem?_eq_getElem houter2⟩
      rw [hentry2]
      simp only [Option.bind_eq_bind', Option.some_bind]
      by_cases hid2 : entry2.id = exp
      · rw [if_pos hid2]
        have hlen2 : 0 < entry2.dependency_chain.length :=
          h2 _ _ hentry2 (by rw [hexp, hid2])
        have hu : usizeSub1 entry2.dependency_chain.length =
            some (entry2.dependency_chain.length - 1) := by
          unfold usizeSub1
          rw [if_neg (by omega)]
        rw [hu]
        simp only [Option.bind_eq_bind', Option.some_bind]
        obtain ⟨e, he⟩ := view_file_event_total
          ⟨(s.selected_file_index.1 - 1,
            some (entry2.dependency_chain.length - 1)), some exp⟩
          (entry2.dependency_chain.length - 1) w entry2
          (by simpa using hentry2) (by omega)
        rw [he]
        simp
      · rw [if_neg hid2]
        simp
  · rw [if_neg houter]
    simp

theorem handle_up_total (s : FDPState) (w : FileDependentPanel)
    (hpre : navPrecondition s w) :
    (handle_up_button_pressed s w).isSome := by
  obtain ⟨h1, h2, h3⟩ := hpre
  obtain ⟨entry, hentry⟩ : ∃ e, w.files[s.selected_file_index.1]? = some e :=
    ⟨_, List.getElem?_eq_getElem h1⟩
  rcases hexp : s.expanded_file with _ | exp
  · have hact : upAction s w = some UpAction.PrevOuterList := by
      unfold upAction
      rw [hexp]
      rfl
    exact up_prevOuter_total s w h1 h2 hact
  · by_cases hid : entry.id = exp
    · have hexpid : s.expanded_file = some entry.id := by rw [hexp, hid]
      have hlen : 0 < entry.dependency_chain.length := h2 _ _ hentry hexpid
      rcases hinner : s.selected_file_index.2 with _ | k
      · have hact : upAction s w = some UpAction.PrevOuterList := by
          unfold upAction
          rw [hexp]
          simp only [Option.bind_eq_bind', Option.some_bind, hentry]
          simp [hid, hinner]
        exact up_prevOuter_total s w h1 h2 hact
      · rcases k with _ | k2
        · have hact : upAction s w = some UpAction.ExitExpandedList := by
            unfold upAction
            rw [hexp]
            simp only [Option.bind_eq_bind', Option.some_bind, hentry]
            simp [hid, hinner]
          unfold handle_up_button_pressed
          rw [hact]
          simp only []
          rw [hinner]
          simp only [Option.bind_eq_bind', Option.some_bind]
          obtain ⟨e, he⟩ := stop_view_file_event_total s 0 w entry hentry
            hlen
          rw [he]
          simp
        · have hk : k2 + 1 < entry.dependency_chain.length :=
            h3 _ _ hinner hentry hexpid
          have hact : upAction s w = some UpAction.PrevExpandedList := by
            unfold upAction
            rw [hexp]
            simp only [Option.bind_eq_bind', Option.some_bind, hentry]
            simp [hid, hinner]
          unfold handle_up_button_pressed
          rw [hact]
          simp only []
          rw [hinner]
          simp only [Nat.add_sub_cancel]
          rw [if_pos (by omega : k2 + 1 > 0)]
          obtain ⟨e1, he1⟩ := stop_view_file_event_total
            ⟨(s.selected_file_index.1, some k2), s.expanded_file⟩ (k2 + 1)
            w entry (by simpa using hentry) hk
          rw [he1]
          simp only [Option.bind_eq_bind', Option.some_bind]
          obtain ⟨e2, he2⟩ := view_file_event_total
            ⟨(s.selected_file_index.1, some k2), s.expanded_file⟩ k2
            w entry (by simpa using hentry) (by omega)
          rw [he2]
          simp
    · have hact : upAction s w = some UpAction.PrevOuterList := by
        unfold upAction
        rw [hexp]
        simp only [Option.bind_eq_bind', Option.some_bind, hentry]
        simp [hid]
      exact up_prevOuter_total s w h1 h2 hact


/-- Claim C10: the navigator's move handlers are total under the
precondition that the outer index is within the dependents list, the
expanded entry's chain is non-empty, and the inner cursor (when open at
the expanded entry) is within the chain — every chain index they use is
then in bounds; without the non-empty-chain part, entering an expanded
entry whose chain is empty computes `len - 1` on an empty chain or
indexes `chain[0]` out of bounds, and the handlers fail (modelled by
`none`). -/
theorem C10_theorem :
    (∀ (s : FDPState) (w : FileDependentPanel), navPrecondition s w →
        (handle_down_button_pressed s w).isSome ∧
        (handle_up_button_pressed s w).isSome) ∧
    handle_down_button_pressed ⟨(0, none), some "one"⟩
        ⟨"source", [⟨"one", "one", RecomplileDependencyReason.compile, []⟩]⟩ =
      none ∧
    handle_up_button_pressed ⟨(1, none), some "one"⟩
        ⟨"source",
         [⟨"one", "one", RecomplileDependencyReason.compile, []⟩,
          ⟨"two", "two", RecomplileDependencyReason.compile, []⟩]⟩ =
      none := by
  refine ⟨fun s w hpre =>
    ⟨handle_down_total s w hpre, handle_up_total s w hpre⟩, rfl, rfl⟩

/-- Claim C10 witness: totality applied at a concrete state satisfying
the precondition. -/
theorem C10_witness :
    (handle_down_button_pressed ⟨(0, none), none⟩
        ⟨"source",
         [⟨"one", "one", RecomplileDependencyReason.compile, []⟩]⟩).isSome ∧
    (handle_up_button_pressed ⟨(0, none), none⟩
        ⟨"source",
         [⟨"one", "one", RecomplileDependencyReason.compile,
            []⟩]⟩).isSome := by
  have hpre : navPrecondition ⟨(0, none), none⟩
      ⟨"source", [⟨"one", "one", RecomplileDependencyReason.compile, []⟩]⟩ := by
    refine ⟨by simp, ?_, ?_⟩
    · intro i entry _ hexp
      simp at hexp
    · intro k entry hk _ _
      simp at hk
  exact C10_theorem.1 ⟨(0, none), none⟩
    ⟨"source", [⟨"one", "one", RecomplileDependencyReason.compile, []⟩]⟩ hpre

end ExCompileGraph
